import Mathlib

/-!
Shallow embedding of the fraud/phishing risk-scoring pipeline of the
repository (files `scoring.py`, `heuristics.py`, `brand_guard.py`,
`llm_client.py`, `ocr.py` and the decision part of `app.py`).

Modelling conventions:
* Python floats are modelled as rationals.
* Python strings are Lean strings; `tok in s`, `s.startswith`,
  `s.endswith` are modelled on the character lists.  `str.lower` and
  the case-insensitive regex flag are modelled with the ASCII
  `Char.toLower`; every fixed token of the source is already lower
  case, and all concrete inputs used below are ASCII, where the two
  coincide.
* The regular expressions of the source are alternations of literal
  words (character classes expanded), except `\s+` which is modelled
  by collapsing whitespace runs before the substring test.
* Absent metadata keys are modelled by the falsy default of the type
  (empty string, `false`, `none`), matching `dict.get` semantics.
-/

namespace Fraudes

/-! ### Python string primitives -/

def lowerStr (s : String) : String := ⟨s.data.map Char.toLower⟩

def upperStr (s : String) : String := ⟨s.data.map Char.toUpper⟩

/-- Substring containment on character lists: models Python `pat in hay`. -/
def hasInfixL (pat : List Char) : List Char → Bool
  | [] => pat.isEmpty
  | c :: rest => pat.isPrefixOf (c :: rest) || hasInfixL pat rest

/-- Python `tok in s` (both strings taken as given, no lowering here). -/
def pyIn (tok s : String) : Bool := hasInfixL tok.data s.data

/-- Python `s.startswith(pre)`. -/
def pyStartsWith (s pre : String) : Bool := pre.data.isPrefixOf s.data

/-- Python `s.endswith(suf)`. -/
def pyEndsWith (s suf : String) : Bool := suf.data.isSuffixOf s.data

/-- Python `len(s)` (number of characters). -/
def pyLen (s : String) : Nat := s.data.length

/-- Python `s[:n]`. -/
def pyTake (n : Nat) (s : String) : String := ⟨s.data.take n⟩

/-! ### scoring.py -/

/-- `HIGH_SEVERITY_TOKENS` of `scoring.py`. -/
def HIGH_SEVERITY_TOKENS : List String :=
  ["sorteio", "prêmio", "premio", "ganhador", "ganhe", "parabéns", "parabens",
   "clique e participe", "clique para participar", "resgatar prêmio", "resgate",
   "receba agora", "promoção", "promocao", "vencedor",
   "confirme sua senha", "token", "pix", "atualize sua conta", "bloqueado", "suspenso"]

/-- `_has_any` of `scoring.py`: lowers the text and tests containment of
any token. -/
def has_any (text : String) (tokens : List String) : Bool :=
  tokens.any (fun tok => pyIn tok (lowerStr text))

/-- Result record of the heuristic engine (`heuristics.heuristic_score`). -/
structure HeurResult where
  score : ℚ
  red_flags : List String
  benign_notes : List String
deriving DecidableEq

/-- Verdict record of the external-classifier adapter (`llm_client.llm_analyze`). -/
structure LlmVerdict where
  label : String
  risk_score_llm : ℚ
  confidence_llm : ℚ
  red_flags : List String
  explanation : String
  actions : List String
deriving DecidableEq

/-- Metadata dictionary fields read by the pipeline.  Defaults model the
falsy value `dict.get` yields for an absent key. -/
structure Meta where
  source_type : String := ""
  url : String := ""
  final_url : String := ""
  status_code : String := ""
  url_accessible : Option Bool := none
  was_redirect_chain : Bool := false
  link_domains : List String := []
  from_domain_suspect : Bool := false
  ocr_text_len : Nat := 0
  domain_whitelisted : Bool := false
  phrase_whitelisted : Bool := false
  brand_impersonation_detected : Bool := false
  brand_impersonation_reason : String := ""
  from_ : String := ""
  subject : String := ""
  from_registered_domain : String := ""
  reply_to_registered_domain : String := ""
deriving DecidableEq

/-- Fused verdict returned by `scoring.combine_scores`. -/
structure Fused where
  risk : ℚ
  confidence : ℚ
  label : String
  actions : List String
deriving DecidableEq

/-- `combine_scores` of `scoring.py`. -/
def combine_scores (heur : HeurResult) (llm : LlmVerdict) (meta : Meta)
    (source_type : String) (raw_text : String) : Fused :=
  let h_score := heur.score
  let l_risk := llm.risk_score_llm
  let l_conf := llm.confidence_llm
  let base0 := 0.55 * h_score + 0.45 * l_risk
  let base1 := if has_any raw_text HIGH_SEVERITY_TOKENS then base0 + 0.08 else base0
  let base2 := if meta.brand_impersonation_detected then base1 + 0.06 else base1
  let base_risk := max 0 (min 1 base2)
  let confidence := 0.6 * l_conf + 0.4 * (1 - |h_score - l_risk|)
  let has_high_sev := has_any raw_text HIGH_SEVERITY_TOKENS
  let label :=
    if base_risk ≥ 0.60 then "fraude"
    else if base_risk ≥ 0.35 ∨ has_high_sev = true then "suspeito"
    else "ok"
  let actions :=
    if label = "fraude" then
      ["Não clique em links nem abra anexos.",
       "Não responda ao remetente.",
       "Reporte ao time de segurança/abuse do provedor.",
       "Se forneceu dados, troque senhas e monitore contas."]
    else if label = "suspeito" then
      ["Desconfie: valide no site/app oficial.",
       "Evite clicar até confirmar a legitimidade.",
       "Cheque remetente/domínio e ortografia."]
    else []
  { risk := base_risk
    confidence := max 0 (min 1 confidence)
    label := label
    actions := actions }

/-! ### heuristics.py -/

def SAFE_DOMAINS : List String :=
  ["bb.com.br", "bancobrasil.com.br", "itau.com.br", "gmail.com",
   "outlook.com", "gov.br", "nubank.com.br", "bradesco.com.br"]

def TRACKING_DOMAINS_HINT : List String :=
  ["p-email.net", "pontaltech.com.br", "sendgrid.net", "mailchimpapp.com",
   "mandrillapp.com", "click.email", "emltrk.com"]

def SHORTENER_DOMAINS : List String :=
  ["bit.ly", "tinyurl.com", "t.co", "is.gd", "cutt.ly", "ow.ly", "buff.ly", "goo.gl"]

/-- ASCII whitespace characters recognised by the regex class. -/
def isPySpace (c : Char) : Bool :=
  c == ' ' || c == '\t' || c == '\n' || c == '\r' || c == '\x0b' || c == '\x0c'

/-- Collapse runs of spaces into one space. -/
def dedupSpaces : List Char → List Char
  | [] => []
  | [c] => [c]
  | c :: d :: rest =>
      if c == ' ' && d == ' ' then dedupSpaces (d :: rest)
      else c :: dedupSpaces (d :: rest)

/-- Map every whitespace character to a space and collapse runs: a literal
pattern with single spaces then matches where the regex had a whitespace
run. -/
def collapseWs (l : List Char) : List Char :=
  dedupSpaces (l.map (fun c => if isPySpace c then ' ' else c))

/-- Search of an alternation of literal words in an (already lowered) text. -/
def regexAnyLit (t : String) (alts : List String) : Bool :=
  alts.any (fun a => hasInfixL a.data t.data)

/-- The urgency/threat regex of heuristic_score, character classes expanded. -/
def urgency_hit (t : String) : Bool :=
  regexAnyLit t ["urgente", "bloqueado", "bloqueada", "suspensa", "suspenso", "24h",
                 "2 horas", "imediatamente", "encerrada permanentemente", "alerta severo"]

/-- The sensitive-action regex of heuristic_score, alternations expanded. -/
def sensitive_hit (t : String) : Bool :=
  regexAnyLit t ["clique", "confirme", "confirmar", "atualize", "atualizar", "senha",
                 "token", "código", "codigo", "pix", "documento", "foto", "selfie",
                 "whatsapp", "wa.me"]

/-- The sensitive-action regex of the benign-signal check (same alternatives,
written in the order of that line of the source). -/
def sensitive_benign_hit (t : String) : Bool :=
  regexAnyLit t ["clique", "atualize", "atualizar", "confirme", "confirmar", "senha",
                 "token", "código", "codigo", "pix", "documento", "foto", "selfie",
                 "whatsapp", "wa.me"]

/-- `PRIZE_CTA_PATTERN` of heuristics.py; the whitespace-separated
alternative is matched on the whitespace-collapsed text. -/
def prize_cta_hit (t : String) : Bool :=
  regexAnyLit t ["sorteio", "prêmio", "premio", "ganhador", "ganhe", "parabéns",
                 "parabens", "resgate", "promocao", "promocão", "promoçao", "promoção",
                 "vencedor"]
  || hasInfixL "clique e participe".data (collapseWs t.data)

def FORMAL_TOKENS : List String :=
  ["atenciosamente", "att.", "assinado digitalmente", "confidencialidade:",
   "assinatura eletrônica"]

/-- Host extraction of `_domain_safe`: first position where the scheme
pattern matches followed by a non-empty run of non-slash characters. -/
def hostAfterScheme : List Char → Option (List Char)
  | [] => none
  | c :: rest =>
      let here : Option (List Char) :=
        if "https://".data.isPrefixOf (c :: rest) then some ((c :: rest).drop 8)
        else if "http://".data.isPrefixOf (c :: rest) then some ((c :: rest).drop 7)
        else none
      match here with
      | some tail =>
          let h := tail.takeWhile (fun ch => ch != '/')
          if h.isEmpty then hostAfterScheme rest else some h
      | none => hostAfterScheme rest

/-- `_domain_safe` of heuristics.py. -/
def _domain_safe (meta : Meta) : Bool :=
  let u := if meta.final_url != "" then meta.final_url else meta.url
  match hostAfterScheme u.data with
  | none => false
  | some h => SAFE_DOMAINS.any (fun d => pyEndsWith ⟨h.map Char.toLower⟩ d)

/-- Benign amount of `_benign_signals`. -/
def benignAmount (text : String) (meta : Meta) : ℚ :=
  let text_lc := lowerStr text
  (if (meta.url_accessible == some true) && pyStartsWith meta.status_code "2"
      && pyStartsWith meta.final_url "https://" && !meta.was_redirect_chain
   then 0.15 else 0)
  + (if _domain_safe meta then 0.20 else 0)
  + (if meta.domain_whitelisted then 0.30 else 0)
  + (if meta.phrase_whitelisted then 0.20 else 0)
  + (if regexAnyLit text_lc FORMAL_TOKENS then 0.05 else 0)
  + (if !sensitive_benign_hit text_lc then 0.10 else 0)
  + (if decide (pyLen text_lc > 80) && !pyIn "http" text_lc then 0.10 else 0)

/-- Notes of `_benign_signals`, in rule order. -/
def benignNotes (text : String) (meta : Meta) : List String :=
  let text_lc := lowerStr text
  (if (meta.url_accessible == some true) && pyStartsWith meta.status_code "2"
      && pyStartsWith meta.final_url "https://" && !meta.was_redirect_chain
   then ["link https estável (2xx)."] else [])
  ++ (if _domain_safe meta then ["domínio conhecido/esperado."] else [])
  ++ (if meta.domain_whitelisted then ["domínio em whitelist."] else [])
  ++ (if meta.phrase_whitelisted then ["frase em whitelist."] else [])
  ++ (if regexAnyLit text_lc FORMAL_TOKENS then ["linguagem formal / assinatura corporativa."] else [])
  ++ (if !sensitive_benign_hit text_lc then ["sem pedido de ação sensível."] else [])
  ++ (if decide (pyLen text_lc > 80) && !pyIn "http" text_lc then ["sem links no corpo do texto."] else [])

/-- Sum of the red-flag weights of `heuristic_score` (the value of `score`
just before the benign offset is subtracted). -/
def heurRaw (text : String) (meta : Meta) : ℚ :=
  let t := lowerStr text
  (if urgency_hit t then 0.22 else 0)
  + (if sensitive_hit t then 0.25 else 0)
  + (if meta.link_domains.any (fun d => SHORTENER_DOMAINS.contains d) then 0.18 else 0)
  + (if meta.url_accessible == some false then 0.12 else 0)
  + (if meta.from_domain_suspect then 0.15 else 0)
  + (if meta.link_domains.any (fun d => TRACKING_DOMAINS_HINT.contains d) then 0.06 else 0)
  + (if meta.source_type == "image" && decide (meta.ocr_text_len < 20) then 0.05 else 0)
  + (if prize_cta_hit t then 0.22 else 0)
  + (if meta.brand_impersonation_detected then 0.30 else 0)
  + (if meta.source_type == "image" && prize_cta_hit t then 0.18 else 0)

/-- Red flags of `heuristic_score`, in rule order.  The reason default is
used when the impersonation reason is absent (modelled as the empty
string, which is how the pipeline leaves the key). -/
def heurRed (text : String) (meta : Meta) : List String :=
  let t := lowerStr text
  (if urgency_hit t then ["tom de urgência/ameaça."] else [])
  ++ (if sensitive_hit t then ["pedido de ação sensível/contato externo."] else [])
  ++ (if meta.link_domains.any (fun d => SHORTENER_DOMAINS.contains d) then ["uso de encurtador de link."] else [])
  ++ (if meta.url_accessible == some false then ["link inacessível."] else [])
  ++ (if meta.from_domain_suspect then ["remetente/domínio com TLD incomum."] else [])
  ++ (if meta.link_domains.any (fun d => TRACKING_DOMAINS_HINT.contains d) then ["links de tracking/ESP."] else [])
  ++ (if meta.source_type == "image" && decide (meta.ocr_text_len < 20) then ["pouco texto reconhecido (OCR)."] else [])
  ++ (if prize_cta_hit t then ["gatilhos de prêmio/sorteio/CTA."] else [])
  ++ (if meta.brand_impersonation_detected then
        [if meta.brand_impersonation_reason == "" then "impersonation de marca."
         else meta.brand_impersonation_reason] else [])
  ++ (if meta.source_type == "image" && prize_cta_hit t then ["imagem promocional suspeita (phishing visual)."] else [])

/-- `heuristic_score` of heuristics.py. -/
def heuristic_score (text : String) (meta : Meta) : HeurResult :=
  { score := min 1 (max 0 (heurRaw text meta - benignAmount text meta))
    red_flags := heurRed text meta
    benign_notes := benignNotes text meta }

/-! ### llm_client.py -/

/-- The fields of the signal summary that the adapter itself reads again
after the external call; the remaining fields of `build_signal_summary`
are only serialized into the request of the external collaborator. -/
structure Signals where
  domain_whitelisted : Bool
  https_2xx_no_chain : Bool
  content_excerpt : String
deriving DecidableEq

/-- `build_signal_summary` of llm_client.py (the fields read back). -/
def build_signal_summary (content : String) (meta : Meta) : Signals :=
  { domain_whitelisted := meta.domain_whitelisted
    https_2xx_no_chain := (meta.url_accessible == some true)
      && pyStartsWith meta.status_code "2" && !meta.was_redirect_chain
    content_excerpt := pyTake 1200 content }

/-- Raw structured record recovered from the external response (after the
best-effort JSON recovery, which never throws). -/
structure LlmRaw where
  label : String
  risk_score_llm : ℚ
  confidence_llm : ℚ
  red_flags : List String
  explanation : String
  actions : List String
deriving DecidableEq

/-- Alternatives of the sensitive-keyword regex of the dampening rule. -/
def DAMPEN_TOKENS : List String :=
  ["senha", "token", "código", "codigo", "pix", "documento", "selfie"]

/-- Deterministic tail of `llm_analyze`: label coercion, clamping and the
post-hoc dampening rule for whitelisted clean senders. -/
def llm_postprocess (signals : Signals) (d : LlmRaw) : LlmVerdict :=
  let label0 := lowerStr d.label
  let label1 := if label0 == "ok" || label0 == "suspeito" || label0 == "fraude"
                then label0 else "ok"
  let risk1 := max 0 (min 1 d.risk_score_llm)
  let conf1 := max 0 (min 1 d.confidence_llm)
  let dampen := signals.domain_whitelisted && signals.https_2xx_no_chain
                && !has_any signals.content_excerpt DAMPEN_TOKENS
  let risk2 := if dampen then max 0 (min 1 (risk1 * 0.7)) else risk1
  let label2 := if dampen && decide (risk2 < 0.4) && !(label1 == "fraude")
                then "ok" else label1
  { label := label2, risk_score_llm := risk2, confidence_llm := conf1,
    red_flags := d.red_flags, explanation := d.explanation, actions := d.actions }

/-- The deterministic disabled-state verdict of `llm_analyze`. -/
def LLM_DEFAULT : LlmVerdict :=
  { label := "ok", risk_score_llm := 0.2, confidence_llm := 0.4,
    red_flags := [], explanation := "LLM desativado (sem OPENAI_API_KEY).", actions := [] }

/-- `llm_analyze` of llm_client.py.  `hasKey` is the presence of the API
key; `ext` is the external transport call, `Except.error` modelling a
raised transport/timeout exception and `Except.ok` the recovered
structured record.  The source wraps the JSON recovery in try/except but
not the transport call itself, so a transport exception escapes. -/
def llm_analyze (hasKey : Bool) (ext : Except Unit LlmRaw)
    (content : String) (meta : Meta) : Except Unit LlmVerdict :=
  if !hasKey then .ok LLM_DEFAULT
  else
    match ext with
    | .error e => .error e
    | .ok raw => .ok (llm_postprocess (build_signal_summary content meta) raw)

/-! ### brand_guard.py -/

/-- `FALLBACK_ALLOWED` of brand_guard.py, flattened to the
brand-to-domains mapping built by `detect_brand_impersonation` (category
then brand order of the source; no external store is present, so the
fallback table is the loaded table). -/
def ALLOWED_TABLE : List (String × List String) :=
  [("tim", ["tim.com.br", "tim.com"]),
   ("claro", ["claro.com.br"]),
   ("vivo", ["vivo.com.br"]),
   ("oi", ["oi.com.br"]),
   ("itau", ["itau.com.br"]),
   ("bradesco", ["bradesco.com.br"]),
   ("santander", ["santander.com.br"]),
   ("banco_do_brasil", ["bb.com.br"]),
   ("caixa", ["caixa.gov.br"]),
   ("nubank", ["nubank.com.br"]),
   ("btg_pactual", ["btgpactual.com"]),
   ("original", ["original.com.br"]),
   ("inter", ["bancointer.com.br"]),
   ("c6bank", ["c6bank.com.br"]),
   ("pagseguro", ["pagseguro.com.br"]),
   ("mercado_pago", ["mercadopago.com", "mercadopago.com.br"]),
   ("paypal", ["paypal.com", "paypal.com.br"]),
   ("picpay", ["picpay.com"]),
   ("serasa", ["serasa.com.br"]),
   ("bmg", ["bancobmg.com.br"]),
   ("safra", ["safra.com.br"]),
   ("amil", ["amil.com.br"]),
   ("unimed", ["unimed.coop.br"]),
   ("hapvida", ["hapvida.com.br"]),
   ("bradesco_saude", ["bradescoseguros.com.br"]),
   ("sulamerica", ["sulamericaseguros.com.br"]),
   ("mercado_livre", ["mercadolivre.com.br"]),
   ("magalu", ["magazineluiza.com.br"]),
   ("americanas", ["americanas.com.br"]),
   ("submarino", ["submarino.com.br"]),
   ("shopee", ["shopee.com.br"]),
   ("amazon", ["amazon.com", "amazon.com.br"])]

def brand_to_domains (b : String) : List String :=
  (((ALLOWED_TABLE.find? (fun p => p.1 == b)).map Prod.snd).getD [])

/-- A word character of the regex boundary class (ASCII model of the
complement of the class of non-word characters plus underscore). -/
def isWordChar (c : Char) : Bool := c.isAlphanum

def sepOrEnd : List Char → Bool
  | [] => true
  | c :: _ => !isWordChar c

/-- Search of the word-boundary-anchored brand pattern
`(either boundary or start) word (either boundary or end)`;
`prevSep` says whether the current position is the start of the text or
is preceded by a boundary character. -/
def boundedMatch (w : List Char) : Bool → List Char → Bool
  | _, [] => false
  | prevSep, c :: rest =>
      (prevSep && w.isPrefixOf (c :: rest) && sepOrEnd ((c :: rest).drop w.length))
      || boundedMatch w (!isWordChar c) rest

/-- `BRAND_PATTERNS` of brand_guard.py: brand key and the expanded literal
alternatives of its pattern (all case-insensitive: the scan text is
lowered before matching). -/
def BRAND_PATTERNS : List (String × List String) :=
  [("tim", ["tim"]), ("claro", ["claro"]), ("vivo", ["vivo"]), ("oi", ["oi"]),
   ("paypal", ["paypal"]), ("itau", ["itau", "itaú"]), ("bradesco", ["bradesco"]),
   ("santander", ["santander"]), ("banco_do_brasil", ["banco do brasil", "bb"]),
   ("caixa", ["caixa"]), ("nubank", ["nubank"])]

def brandSearch (alts : List String) (text : String) : Bool :=
  alts.any (fun w => boundedMatch w.data true (lowerStr text).data)

/-- `_candidate_brands` of brand_guard.py.  The source collects a set; the
table order used here only fixes which brand is reported, not whether a
critical impersonation exists. -/
def _candidate_brands (text : String) : List String :=
  (BRAND_PATTERNS.filter (fun p => brandSearch p.2 text)).map Prod.fst

/-- Python `s.strip()` (whitespace at both ends removed). -/
def pyStrip (s : String) : String :=
  ⟨((s.data.dropWhile isPySpace).reverse.dropWhile isPySpace).reverse⟩

/-- Python `s.replace(" ", "_")` (single-character pattern). -/
def replaceSpaceUnderscore (s : String) : String :=
  ⟨s.data.map (fun c => if c == ' ' then '_' else c)⟩

/-- `canonical` of `detect_brand_impersonation`. -/
def canonical (b : String) : String :=
  let b := pyStrip (lowerStr b)
  if b == "itaú" then "itau"
  else if b == "banco do brasil" then "banco_do_brasil"
  else if b == "bb" then "banco_do_brasil"
  else replaceSpaceUnderscore b

structure ImpVerdict where
  detected : Bool
  brand_detected : Bool
  critical_impersonation : Bool
  brand : Option String
  from_domain : String
  official_domains : List String
  reason : String
deriving DecidableEq

def joinComma : List String → String
  | [] => ""
  | [x] => x
  | x :: y :: rest => x ++ ", " ++ joinComma (y :: rest)

/-- Python repr of a list of strings, used inside the reason message. -/
def pyListRepr (xs : List String) : String :=
  "[" ++ joinComma (xs.map (fun s => "\x27" ++ s ++ "\x27")) ++ "]"

/-- The candidate loop of `detect_brand_impersonation`: first candidate
with official domains whose sender or reply-to registered domain fails
the suffix test against every official domain. -/
def findCrit (from_reg reply_reg : String) : List String → Option ImpVerdict
  | [] => none
  | c :: rest =>
      let canon := canonical c
      let official := brand_to_domains canon
      if official.isEmpty then findCrit from_reg reply_reg rest
      else if !(from_reg == "") && official.all (fun od => !pyEndsWith from_reg od) then
        some { detected := true, brand_detected := true, critical_impersonation := true,
               brand := some canon, from_domain := from_reg, official_domains := official,
               reason := "Impersonation de marca: \x27" ++ upperStr c
                 ++ "\x27 mencionado, mas remetente é \x27" ++ from_reg
                 ++ "\x27, fora dos domínios oficiais " ++ pyListRepr official ++ "." }
      else if !(reply_reg == "") && official.all (fun od => !pyEndsWith reply_reg od) then
        some { detected := true, brand_detected := true, critical_impersonation := true,
               brand := some canon, from_domain := from_reg, official_domains := official,
               reason := "Impersonation de marca: reply-to \x27" ++ reply_reg
                 ++ "\x27 não pertence aos domínios oficiais " ++ pyListRepr official ++ "." }
      else findCrit from_reg reply_reg rest

/-- `detect_brand_impersonation` of brand_guard.py. -/
def detect_brand_impersonation (meta : Meta) (content_text : String) : ImpVerdict :=
  let from_reg := lowerStr meta.from_registered_domain
  let reply_reg := lowerStr meta.reply_to_registered_domain
  let scan_text := meta.from_ ++ " " ++ meta.subject ++ " " ++ content_text
  match _candidate_brands scan_text with
  | [] =>
      { detected := false, brand_detected := false, critical_impersonation := false,
        brand := none, from_domain := from_reg, official_domains := [], reason := "" }
  | first :: rest =>
      match findCrit from_reg reply_reg (first :: rest) with
      | some v => v
      | none =>
          { detected := true, brand_detected := true, critical_impersonation := false,
            brand := some first, from_domain := from_reg,
            official_domains := brand_to_domains first, reason := "" }

/-! ### app.py (decision part of the analyze route) -/

/-- `_PRIZE_CTA_ANY` of app.py. -/
def _PRIZE_CTA_ANY : List String :=
  ["sorteio", "prêmio", "premio", "ganhe", "ganhador", "parabéns", "parabens",
   "clique e participe", "clique para participar", "resgatar prêmio", "resgate",
   "receba agora", "participe", "promoção", "promocao", "vencedor"]

/-- `_BRAND_WORDS` of app.py. -/
def _BRAND_WORDS : List String :=
  ["banco do brasil", "bancodobrasil", "bb ",
   "bradesco", "itau", "itaú", "santander", "caixa", "nubank",
   "tim", "claro", "vivo", "oi"]

def _has_prize_cta (text : String) : Bool :=
  _PRIZE_CTA_ANY.any (fun k => pyIn k (lowerStr text))

def _has_brand_words (text : String) : Bool :=
  _BRAND_WORDS.any (fun k => pyIn k (lowerStr text))

/-- The domain-whitelist test of the analyze route: the lowered full URL
string (final URL, else original URL) is suffix-tested against each
non-empty whitelist entry. -/
def domain_whitelist_hit (safeDomains : List String) (meta : Meta) : Bool :=
  let domain_source := lowerStr (if meta.final_url == "" then meta.url else meta.final_url)
  safeDomains.any (fun d => !(d == "") && pyEndsWith domain_source (lowerStr d))

def phrase_whitelist_hit (safePhrases : List String) (content : String) : Bool :=
  let text_lower := lowerStr content
  safePhrases.any (fun p => !(p == "") && pyIn (lowerStr p) text_lower)

/-- Whitelist flag assignment of the analyze route. -/
def whitelistMeta (safeDomains safePhrases : List String) (content : String)
    (meta : Meta) : Meta :=
  let m1 := if domain_whitelist_hit safeDomains meta
            then { meta with domain_whitelisted := true } else meta
  if phrase_whitelist_hit safePhrases content
  then { m1 with phrase_whitelisted := true } else m1

/-- Rounding of Python `round(x, 1)` on an exact value (ties to even). -/
def roundHalfEven (x : ℚ) : ℤ :=
  let f := ⌊x⌋
  if x - f < 1/2 then f
  else if 1/2 < x - f then f + 1
  else if f % 2 = 0 then f else f + 1

def pyRound1 (x : ℚ) : ℚ := (roundHalfEven (10 * x) : ℚ) / 10

/-- Rendered outcome of the analyze route (label, percentages, evidence). -/
structure Outcome where
  label : String
  risk_pct : ℚ
  conf_pct : ℚ
  red_flags : List String
  actions : List String
deriving DecidableEq

/-- The Brand Guard verdict the analyze route computes (on the metadata
with whitelist flags applied). -/
def analyzeImp (safeDomains safePhrases : List String) (content : String)
    (meta0 : Meta) : ImpVerdict :=
  detect_brand_impersonation (whitelistMeta safeDomains safePhrases content meta0) content

/-- Metadata after the whitelist flags and the Brand Guard flags of the
analyze route (the reason key is only written when non-empty). -/
def analyzeMeta (safeDomains safePhrases : List String) (content : String)
    (meta0 : Meta) : Meta :=
  let metaW := whitelistMeta safeDomains safePhrases content meta0
  let imp := analyzeImp safeDomains safePhrases content meta0
  { metaW with
    brand_impersonation_detected := imp.detected,
    brand_impersonation_reason :=
      if imp.reason == "" then metaW.brand_impersonation_reason else imp.reason }

/-- Decision part of the analyze route of app.py, from the point where
non-empty content and its metadata have been extracted: whitelist flags,
Brand Guard, the two absolute overrides, then heuristic, external
classifier and fusion.  `hasKey`/`ext` are the inputs of `llm_analyze`;
a transport exception propagates to the generic handler of the route
(the `Except.error` result). -/
def analyze_decide (content : String) (meta0 : Meta) (source_type : String)
    (safeDomains safePhrases : List String)
    (hasKey : Bool) (ext : Except Unit LlmRaw) : Except Unit Outcome :=
  let imp := analyzeImp safeDomains safePhrases content meta0
  let meta := analyzeMeta safeDomains safePhrases content meta0
  if imp.critical_impersonation then
    .ok { label := "fraude", risk_pct := 95.0, conf_pct := 90.0,
          red_flags := [if imp.reason == "" then "Impersonation de marca detectado." else imp.reason],
          actions := ["Não clique em nenhum link.",
                      "Não responda ao e-mail.",
                      "Reporte ao time de segurança/abuse do provedor.",
                      "Se informou dados, altere senhas e contate o suporte oficial."] }
  else if source_type == "image" && _has_prize_cta content
          && (_has_brand_words content || meta.brand_impersonation_detected) then
    .ok { label := "fraude", risk_pct := 92.0, conf_pct := 82.0,
          red_flags := [if meta.brand_impersonation_reason == ""
                        then "Marca mencionada na arte." else meta.brand_impersonation_reason,
                        "Imagem contém gatilhos de prêmio/sorteio/CTA.",
                        "Phishing visual sem comprovação de domínio oficial."],
          actions := ["Não acesse links ou QR codes desse material.",
                      "Verifique campanhas no site/app oficial da marca.",
                      "Reporte este conteúdo ao time de segurança."] }
  else
    let heur := heuristic_score content meta
    match llm_analyze hasKey ext content meta with
    | .error e => .error e
    | .ok llm =>
        let final := combine_scores heur llm meta source_type content
        let red := (llm.red_flags ++ heur.red_flags).eraseDups
        .ok { label := final.label,
              risk_pct := pyRound1 (final.risk * 100),
              conf_pct := pyRound1 (final.confidence * 100),
              red_flags := red.take 12,
              actions := (if final.actions.isEmpty then llm.actions else final.actions).take 10 }

/-- Label of an analyze outcome, `none` on the generic failure path. -/
def outcomeLabel : Except Unit Outcome → Option String
  | .ok o => some o.label
  | .error _ => none

/-! ### ocr.py -/

/-- The environment parameters of the OCR loop (defaults of the source). -/
structure OcrCfg where
  time_budget_ms : ℚ := 2200
  early_conf_threshold : ℚ := 70
  early_min_chars : Nat := 10

/-- One classification pass of the flattened variant and
page-segmentation sequence of `ocr_from_image_file`: the cleaned text
and mean confidence the backend returns, whether this is a
character-whitelist pass (which earns the fixed confidence bonus), and
the wall-clock elapsed milliseconds measured right after the pass. -/
structure OcrPass where
  txt : String
  conf : ℚ
  wl : Bool
  elapsed_ms : ℚ

/-- Effective confidence of a pass (whitelist passes get `+2.0`). -/
def effConf (p : OcrPass) : ℚ := p.conf + (if p.wl then 2 else 0)

/-- Best-result update: only non-empty text competes, strictly better
confidence wins. -/
def updBest (best : Option (String × ℚ)) (p : OcrPass) : Option (String × ℚ) :=
  if p.txt == "" then best
  else
    match best with
    | none => some (p.txt, effConf p)
    | some (bt, bc) => if bc < effConf p then some (p.txt, effConf p) else some (bt, bc)

def bestText : Option (String × ℚ) → String
  | none => ""
  | some (t, _) => t

/-- Early-exit test: non-empty text, confidence at or above the threshold
and enough characters. -/
def earlyB (cfg : OcrCfg) (p : OcrPass) : Bool :=
  !(p.txt == "") && decide (cfg.early_conf_threshold ≤ effConf p)
    && decide (cfg.early_min_chars ≤ pyLen p.txt)

/-- Budget test after a pass: elapsed time strictly beyond the budget. -/
def budgetB (cfg : OcrCfg) (p : OcrPass) : Bool :=
  decide (cfg.time_budget_ms < p.elapsed_ms)

/-- The main pass loop of `ocr_from_image_file`.  A backend exception
(`Except.error`) is not caught here and propagates; otherwise the best
result is updated, then the early exit and the budget check run in the
order of the source.  The loop yields either a short-circuit text
(`Sum.inl`) or, after all passes, the final best pair (`Sum.inr`). -/
def ocrLoop (cfg : OcrCfg) :
    List (Except Unit OcrPass) → Option (String × ℚ) →
    Except Unit (String ⊕ Option (String × ℚ))
  | [], best => .ok (.inr best)
  | .error e :: _, _ => .error e
  | .ok p :: rest, best =>
      let best1 := updBest best p
      if earlyB cfg p then .ok (.inl p.txt)
      else if budgetB cfg p then .ok (.inl (bestText best1))
      else ocrLoop cfg rest best1

/-- `ocr_from_image_file` of ocr.py over the oracle pass sequence.  Only
the final plain-grayscale fallback pass (run when nothing was found) is
wrapped in try/except in the source, so only its exception is swallowed. -/
def ocr_from_image_file (cfg : OcrCfg) (passes : List (Except Unit OcrPass))
    (fallback : Except Unit (String × ℚ)) : Except Unit String :=
  match ocrLoop cfg passes none with
  | .error e => .error e
  | .ok (.inl t) => .ok t
  | .ok (.inr (some (t, _))) => .ok t
  | .ok (.inr none) =>
      match fallback with
      | .error _ => .ok ""
      | .ok (t, _) => .ok t

/-- A pass after which the loop keeps going: no exception, no early exit,
within budget. -/
def continuesB (cfg : OcrCfg) : Except Unit OcrPass → Bool
  | .error _ => false
  | .ok p => !earlyB cfg p && !budgetB cfg p

/-- Best pair accumulated over a prefix of the pass sequence. -/
def foldBest (best : Option (String × ℚ)) : List (Except Unit OcrPass) → Option (String × ℚ)
  | [] => best
  | .ok p :: rest => foldBest (updBest best p) rest
  | .error _ :: rest => foldBest best rest

/-- A pass whose backend call succeeded but recognised no text. -/
def emptyOkB : Except Unit OcrPass → Bool
  | .ok p => p.txt == ""
  | .error _ => false

/-- A fallback pass that throws or recognises no text. -/
def fbNoTextB : Except Unit (String × ℚ) → Bool
  | .ok (t, _) => t == ""
  | .error _ => true

/-! ### Concrete inputs used by counterexamples and witnesses -/

/-- URL metadata of a whitelisted, cleanly reachable sender that still
carries fraud signals (shortener link, suspicious sender TLD). -/
def exMeta4 : Meta :=
  { source_type := "url", url := "https://evil.example",
    final_url := "https://evil.example", status_code := "200",
    url_accessible := some true, link_domains := ["bit.ly"],
    from_domain_suspect := true }

/-- Content with urgency and prize-bait language, a brand mention, and no
sensitive-action keyword. -/
def exContent4 : String := "urgente sorteio agora itau"

/-- External verdict with maximal risk and confidence. -/
def exRaw4 : LlmRaw := { label := "ok", risk_score_llm := 1, confidence_llm := 1,
                         red_flags := [], explanation := "", actions := [] }

def exSafe4 : List String := ["evil.example"]

/-- The metadata of `exMeta4` after the whitelist and Brand Guard flags of
the analyze route. -/
def exMeta4F : Meta :=
  { exMeta4 with domain_whitelisted := true, brand_impersonation_detected := true }

/-- A 77-character text whose only red flag is the prize pattern and that
contains no sensitive-action keyword and no link. -/
def exText7 : String :=
  "sorteio aberto para moradores cadastrados no programa municipal de beneficios"

/-- A brand candidate all of whose official domains are matched by the
plain suffix test of `findCrit` against the sender registered domain,
and against the reply-to registered domain when that one is non-empty. -/
def coveredB (from_reg reply_reg : String) (c : String) : Bool :=
  (brand_to_domains (canonical c)).any (fun od => pyEndsWith from_reg od)
  && (reply_reg == "" || (brand_to_domains (canonical c)).any (fun od => pyEndsWith reply_reg od))

/-! ## Helper lemmas -/

lemma pyEndsWith_empty_left (d : String) (hd : d ≠ "") :
    pyEndsWith (lowerStr "") (lowerStr d) = false := by
  have hne : d.data ≠ [] := by
    intro hnil
    apply hd
    cases d with
    | mk l =>
      simp at hnil
      subst hnil
      rfl
  have hne2 : (lowerStr d).data ≠ [] := by
    show d.data.map Char.toLower ≠ []
    simpa using hne
  show List.isSuffixOf ((lowerStr d).data) ((lowerStr "").data) = false
  unfold List.isSuffixOf
  show List.isPrefixOf ((lowerStr d).data.reverse) [] = false
  cases hrev : (lowerStr d).data.reverse with
  | nil => exact absurd (List.reverse_eq_nil_iff.mp hrev) hne2
  | cons b bs => rfl

lemma hasInfixL_iff (pat l : List Char) : hasInfixL pat l = true ↔ pat <:+: l := by
  induction l with
  | nil => simp [hasInfixL, List.isEmpty_iff, List.infix_nil]
  | cons c rest ih =>
    rw [hasInfixL, Bool.or_eq_true, ih, List.isPrefixOf_iff_prefix]
    constructor
    · rintro (hp | hi)
      · exact hp.isInfix
      · exact List.infix_cons hi
    · rintro ⟨s, t, hst⟩
      cases s with
      | nil => exact Or.inl ⟨t, by simpa using hst⟩
      | cons a s2 =>
        right
        refine ⟨s2, t, ?_⟩
        have := congrArg List.tail hst
        simpa using this

lemma hasInfixL_mono_of_pref {pat l l2 : List Char} (hp : l <+: l2)
    (h : hasInfixL pat l = true) : hasInfixL pat l2 = true :=
  (hasInfixL_iff _ _).mpr (((hasInfixL_iff _ _).mp h).trans hp.isInfix)

lemma lowerStr_append (t s : String) : lowerStr (t ++ s) = lowerStr t ++ lowerStr s := by
  cases t with
  | mk a =>
    cases s with
    | mk b =>
      show String.mk ((a ++ b).map Char.toLower)
          = String.mk (a.map Char.toLower ++ b.map Char.toLower)
      rw [List.map_append]

lemma regexAnyLit_mono (alts : List String) (a b : String)
    (h : regexAnyLit a alts = true) : regexAnyLit (a ++ b) alts = true := by
  unfold regexAnyLit at h ⊢
  rcases List.any_eq_true.mp h with ⟨w, hw, hinf⟩
  refine List.any_eq_true.mpr ⟨w, hw, ?_⟩
  have hdata : (a ++ b).data = a.data ++ b.data := String.data_append a b
  rw [hdata]
  exact hasInfixL_mono_of_pref (List.prefix_append _ _) hinf

lemma dedupSpaces_cons_head : ∀ (l : List Char) (d : Char),
    ∃ t, dedupSpaces (d :: l) = d :: t := by
  intro l
  induction l with
  | nil => exact fun d => ⟨[], rfl⟩
  | cons e ls ih =>
    intro d
    by_cases hde : (d == ' ' && e == ' ') = true
    · rw [show dedupSpaces (d :: e :: ls) = dedupSpaces (e :: ls) by
        simp [dedupSpaces, hde]]
      obtain ⟨t, ht⟩ := ih e
      rw [ht]
      rw [Bool.and_eq_true, beq_iff_eq, beq_iff_eq] at hde
      exact ⟨t, by rw [hde.1, hde.2]⟩
    · exact ⟨dedupSpaces (e :: ls), by simp [dedupSpaces, hde]⟩

lemma dedupSpaces_pref_append : ∀ (x y : List Char),
    dedupSpaces x <+: dedupSpaces (x ++ y) := by
  intro x
  induction x with
  | nil => exact fun y => List.nil_prefix
  | cons c rest ih =>
    intro y
    cases rest with
    | nil =>
      cases y with
      | nil => simp
      | cons d ys =>
        show dedupSpaces [c] <+: dedupSpaces (c :: d :: ys)
        by_cases hcd : (c == ' ' && d == ' ') = true
        · rw [show dedupSpaces (c :: d :: ys) = dedupSpaces (d :: ys) by
            simp [dedupSpaces, hcd]]
          obtain ⟨t, ht⟩ := dedupSpaces_cons_head ys d
          rw [ht]
          rw [Bool.and_eq_true, beq_iff_eq, beq_iff_eq] at hcd
          rw [hcd.1, hcd.2]
          exact ⟨t, rfl⟩
        · rw [show dedupSpaces (c :: d :: ys) = c :: dedupSpaces (d :: ys) by
            simp [dedupSpaces, hcd]]
          exact ⟨dedupSpaces (d :: ys), rfl⟩
    | cons d rest2 =>
      show dedupSpaces (c :: d :: rest2) <+: dedupSpaces (c :: d :: (rest2 ++ y))
      by_cases hcd : (c == ' ' && d == ' ') = true
      · rw [show dedupSpaces (c :: d :: rest2) = dedupSpaces (d :: rest2) by
            simp [dedupSpaces, hcd],
          show dedupSpaces (c :: d :: (rest2 ++ y)) = dedupSpaces (d :: (rest2 ++ y)) by
            simp [dedupSpaces, hcd]]
        exact ih y
      · rw [show dedupSpaces (c :: d :: rest2) = c :: dedupSpaces (d :: rest2) by
            simp [dedupSpaces, hcd],
          show dedupSpaces (c :: d :: (rest2 ++ y)) = c :: dedupSpaces (d :: (rest2 ++ y)) by
            simp [dedupSpaces, hcd]]
        obtain ⟨t, ht⟩ := ih y
        exact ⟨t, by rw [List.cons_append, ht]; rfl⟩

lemma collapseWs_pref_append (x y : List Char) :
    collapseWs x <+: collapseWs (x ++ y) := by
  unfold collapseWs
  rw [List.map_append]
  exact dedupSpaces_pref_append _ _

lemma prize_cta_hit_mono (a b : String) (h : prize_cta_hit a = true) :
    prize_cta_hit (a ++ b) = true := by
  unfold prize_cta_hit at h ⊢
  rw [Bool.or_eq_true] at h ⊢
  cases h with
  | inl hr => exact Or.inl (regexAnyLit_mono _ a b hr)
  | inr hi =>
    right
    have hdata : (a ++ b).data = a.data ++ b.data := String.data_append a b
    rw [hdata]
    exact hasInfixL_mono_of_pref (collapseWs_pref_append _ _) hi

lemma ite_weight_mono (a b : Bool) (w : ℚ) (hw : 0 ≤ w) (h : a = true → b = true) :
    (if a = true then w else 0) ≤ (if b = true then w else 0) := by
  by_cases ha : a = true
  · rw [if_pos ha, if_pos (h ha)]
  · rw [if_neg ha]
    split_ifs
    · exact hw
    · exact le_refl 0

lemma all_not_of_any {l : List String} {p : String → Bool}
    (h : l.any p = true) : (l.all (fun x => !p x)) = false := by
  rcases List.any_eq_true.mp h with ⟨x, hx, hp⟩
  apply Bool.eq_false_iff.mpr
  intro hall
  have := List.all_eq_true.mp hall x hx
  simp [hp] at this

lemma findCrit_none (from_reg reply_reg : String) (l : List String)
    (h : l.all (coveredB from_reg reply_reg) = true) :
    findCrit from_reg reply_reg l = none := by
  induction l with
  | nil => rfl
  | cons c rest ih =>
    rw [List.all_cons, Bool.and_eq_true] at h
    obtain ⟨hc, hrest⟩ := h
    rw [coveredB, Bool.and_eq_true] at hc
    obtain ⟨hfrom, hreply⟩ := hc
    have hfrom2 := all_not_of_any hfrom
    simp only [findCrit]
    split_ifs with h1 h2 h3
    · exact ih hrest
    · rw [Bool.and_eq_true] at h2
      rw [hfrom2] at h2
      exact absurd h2.2 (by simp)
    · rw [Bool.and_eq_true] at h3
      rw [Bool.or_eq_true] at hreply
      cases hreply with
      | inl hr =>
        rw [hr] at h3
        exact absurd h3.1 (by simp)
      | inr hr =>
        rw [all_not_of_any hr] at h3
        exact absurd h3.2 (by simp)
    · exact ih hrest

lemma label_rule_spec (r : ℚ) (hs : Bool) :
    ((if r ≥ 0.60 then "fraude" else if r ≥ 0.35 ∨ hs = true then "suspeito" else "ok") = "fraude"
        ↔ r ≥ 0.60)
    ∧ (r < 0.60 →
        ((if r ≥ 0.60 then "fraude" else if r ≥ 0.35 ∨ hs = true then "suspeito" else "ok") = "suspeito"
          ↔ (r ≥ 0.35 ∨ hs = true)))
    ∧ (r < 0.60 →
        ((if r ≥ 0.60 then "fraude" else if r ≥ 0.35 ∨ hs = true then "suspeito" else "ok") = "ok"
          ↔ ¬(r ≥ 0.35 ∨ hs = true))) := by
  split_ifs with h1 h2
  · exact ⟨⟨fun _ => h1, fun _ => rfl⟩,
      fun hlt => absurd h1 (not_le.mpr hlt),
      fun hlt => absurd h1 (not_le.mpr hlt)⟩
  · exact ⟨⟨fun h => absurd h (by decide), fun hr => absurd hr h1⟩,
      fun _ => ⟨fun _ => h2, fun _ => rfl⟩,
      fun _ => ⟨fun h => absurd h (by decide), fun h => absurd h2 h⟩⟩
  · exact ⟨⟨fun h => absurd h (by decide), fun hr => absurd hr h1⟩,
      fun _ => ⟨fun h => absurd h (by decide), fun h => absurd h h2⟩,
      fun _ => ⟨fun _ => h2, fun _ => rfl⟩⟩

lemma llm_dampened_risk_le (signals : Signals) (raw : LlmRaw)
    (hd : (signals.domain_whitelisted && signals.https_2xx_no_chain
           && !has_any signals.content_excerpt DAMPEN_TOKENS) = true) :
    (llm_postprocess signals raw).risk_score_llm ≤ 0.7 := by
  unfold llm_postprocess
  dsimp only
  rw [hd]
  simp only [if_true]
  have h1 : max 0 (min 1 raw.risk_score_llm) ≤ 1 :=
    max_le (by norm_num) (min_le_left _ _)
  have h2 : max 0 (min 1 raw.risk_score_llm) * 0.7 ≤ 0.7 := by nlinarith
  exact max_le (by norm_num) (le_trans (min_le_right _ _) h2)

lemma combine_label_ne_fraude (heur : HeurResult) (llm : LlmVerdict) (meta : Meta)
    (st raw : String) (hh : heur.score < 29/110) (hl : llm.risk_score_llm ≤ 0.7) :
    (combine_scores heur llm meta st raw).label ≠ "fraude" := by
  unfold combine_scores
  dsimp only
  set b0 := 0.55 * heur.score + 0.45 * llm.risk_score_llm with hb0def
  have hb0 : b0 < 0.46 := by rw [hb0def]; nlinarith
  set c1 := has_any raw HIGH_SEVERITY_TOKENS with hc1def
  set c2 := meta.brand_impersonation_detected with hc2def
  set b1 := if c1 = true then b0 + 0.08 else b0 with hb1def
  have hb1 : b1 < 0.54 := by rw [hb1def]; split_ifs <;> linarith
  set b2 := if c2 = true then b1 + 0.06 else b1 with hb2def
  have hb2 : b2 < 0.60 := by rw [hb2def]; split_ifs <;> linarith
  have hlt : max 0 (min 1 b2) < 0.60 :=
    max_lt (by norm_num) (lt_of_le_of_lt (min_le_right _ _) hb2)
  rw [if_neg (not_le.mpr hlt)]
  split_ifs <;> decide

lemma ocrLoop_append (cfg : OcrCfg) (pre l : List (Except Unit OcrPass))
    (best : Option (String × ℚ)) (h : pre.all (continuesB cfg) = true) :
    ocrLoop cfg (pre ++ l) best = ocrLoop cfg l (foldBest best pre) := by
  induction pre generalizing best with
  | nil => rfl
  | cons x rest ih =>
    rw [List.all_cons, Bool.and_eq_true] at h
    obtain ⟨hx, hrest⟩ := h
    cases x with
    | error e => simp [continuesB] at hx
    | ok p =>
      have hx2 : earlyB cfg p = false ∧ budgetB cfg p = false := by
        simpa [continuesB] using hx
      have hloop : ocrLoop cfg ((.ok p :: rest) ++ l) best
          = ocrLoop cfg (rest ++ l) (updBest best p) := by
        show ocrLoop cfg (.ok p :: (rest ++ l)) best = _
        simp only [ocrLoop]
        simp [hx2.1, hx2.2]
      rw [hloop]
      exact ih (updBest best p) hrest

lemma ocrLoop_all_empty (cfg : OcrCfg) (passes : List (Except Unit OcrPass))
    (h : passes.all emptyOkB = true) :
    ocrLoop cfg passes none = .ok (.inl "") ∨ ocrLoop cfg passes none = .ok (.inr none) := by
  induction passes with
  | nil => right; rfl
  | cons x rest ih =>
    rw [List.all_cons, Bool.and_eq_true] at h
    obtain ⟨hx, hrest⟩ := h
    cases x with
    | error e => simp [emptyOkB] at hx
    | ok p =>
      have hp : p.txt = "" := by simpa [emptyOkB] using hx
      have hupd : updBest none p = none := by simp [updBest, hp]
      have hearly : earlyB cfg p = false := by simp [earlyB, hp]
      have hloop : ocrLoop cfg (.ok p :: rest) none
          = (if budgetB cfg p = true then Except.ok (.inl "") else ocrLoop cfg rest none) := by
        simp only [ocrLoop]
        simp [hearly, hupd, bestText]
      rw [hloop]
      by_cases hb : budgetB cfg p = true
      · left
        simp [hb]
      · rw [Bool.not_eq_true] at hb
        simp only [hb, Bool.false_eq_true, if_false]
        exact ih hrest

/-! ## Claim theorems -/

/-- C1: whenever the Brand Guard verdict computed by the analyze route has
`critical_impersonation = true`, the route short-circuits before the
heuristic/classifier fusion (the external call input `ext` is never
consulted) and returns label `fraude`, riskPct 95.0, confidencePct 90.0
and the fixed action list. -/
theorem analyze_critical_override (content : String) (meta0 : Meta) (st : String)
    (sd sp : List String) (hasKey : Bool) (ext : Except Unit LlmRaw)
    (h : (analyzeImp sd sp content meta0).critical_impersonation = true) :
    ∃ o : Outcome, analyze_decide content meta0 st sd sp hasKey ext = .ok o
      ∧ o.label = "fraude" ∧ o.risk_pct = 95.0 ∧ o.conf_pct = 90.0
      ∧ o.actions = ["Não clique em nenhum link.",
                     "Não responda ao e-mail.",
                     "Reporte ao time de segurança/abuse do provedor.",
                     "Se informou dados, altere senhas e contate o suporte oficial."] := by
  have heq : analyze_decide content meta0 st sd sp hasKey ext
      = .ok { label := "fraude", risk_pct := 95.0, conf_pct := 90.0,
              red_flags := [if (analyzeImp sd sp content meta0).reason == ""
                            then "Impersonation de marca detectado."
                            else (analyzeImp sd sp content meta0).reason],
              actions := ["Não clique em nenhum link.",
                          "Não responda ao e-mail.",
                          "Reporte ao time de segurança/abuse do provedor.",
                          "Se informou dados, altere senhas e contate o suporte oficial."] } := by
    unfold analyze_decide
    dsimp only
    rw [h]
    simp
  exact ⟨_, heq, rfl, rfl, rfl, rfl⟩

/-- Witness for C1 at a concrete critical impersonation: subject mentions
Itau while the sender registered domain is `itau-seguro.net`. -/
theorem analyze_critical_override_witness :
    ∃ o : Outcome,
      analyze_decide "conta corrente"
          { subject := "Itau", from_registered_domain := "itau-seguro.net" }
          "email" [] [] false (.error ()) = .ok o
      ∧ o.label = "fraude" ∧ o.risk_pct = 95.0 ∧ o.conf_pct = 90.0
      ∧ o.actions = ["Não clique em nenhum link.",
                     "Não responda ao e-mail.",
                     "Reporte ao time de segurança/abuse do provedor.",
                     "Se informou dados, altere senhas e contate o suporte oficial."] :=
  analyze_critical_override "conta corrente"
    { subject := "Itau", from_registered_domain := "itau-seguro.net" }
    "email" [] [] false (.error ()) (by decide)

/-- C2: `combine_scores` returns risk equal to the clamped weighted blend
`0.55·heuristic + 0.45·classifier` plus the two additive boosts, and
confidence equal to the clamped `0.6·classifierConfidence +
0.4·(1 − |heuristic − classifierRisk|)`. -/
theorem combine_scores_formula (heur : HeurResult) (llm : LlmVerdict) (meta : Meta)
    (st raw : String) :
    (combine_scores heur llm meta st raw).risk
      = max 0 (min 1 (0.55 * heur.score + 0.45 * llm.risk_score_llm
          + (if has_any raw HIGH_SEVERITY_TOKENS then 0.08 else 0)
          + (if meta.brand_impersonation_detected then 0.06 else 0)))
    ∧ (combine_scores heur llm meta st raw).confidence
      = max 0 (min 1 (0.6 * llm.confidence_llm
          + 0.4 * (1 - |heur.score - llm.risk_score_llm|))) := by
  refine ⟨?_, rfl⟩
  unfold combine_scores
  dsimp only
  congr 1
  congr 1
  split_ifs <;> ring

/-- C3: the label of `combine_scores` is `fraude` exactly when the fused
risk is at least 0.60; below that it is `suspeito` exactly when the risk
is at least 0.35 or the raw text contains a high-severity token; and `ok`
exactly otherwise. -/
theorem combine_scores_label (heur : HeurResult) (llm : LlmVerdict) (meta : Meta)
    (st raw : String) :
    ((combine_scores heur llm meta st raw).label = "fraude"
        ↔ (combine_scores heur llm meta st raw).risk ≥ 0.60)
    ∧ ((combine_scores heur llm meta st raw).risk < 0.60 →
        ((combine_scores heur llm meta st raw).label = "suspeito"
          ↔ ((combine_scores heur llm meta st raw).risk ≥ 0.35
              ∨ has_any raw HIGH_SEVERITY_TOKENS = true)))
    ∧ ((combine_scores heur llm meta st raw).risk < 0.60 →
        ((combine_scores heur llm meta st raw).label = "ok"
          ↔ ¬((combine_scores heur llm meta st raw).risk ≥ 0.35
              ∨ has_any raw HIGH_SEVERITY_TOKENS = true))) := by
  unfold combine_scores
  dsimp only
  exact label_rule_spec _ _

/-- Witness for C3: with zero scores and empty text the label is `ok`. -/
theorem combine_scores_label_witness :
    (combine_scores ⟨0, [], []⟩ ⟨"ok", 0, 0, [], "", []⟩ {} "" "").label = "ok" := by
  have hh : has_any "" HIGH_SEVERITY_TOKENS = false := by decide
  have hr : (combine_scores ⟨0, [], []⟩ ⟨"ok", 0, 0, [], "", []⟩ {} "" "").risk = 0 := by
    unfold combine_scores
    dsimp only
    rw [hh]
    norm_num [max_def, min_def]
  have h3 := (combine_scores_label ⟨0, [], []⟩ ⟨"ok", 0, 0, [], "", []⟩ {} "" "").2.2
  apply (h3 (by rw [hr]; norm_num)).mpr
  rw [hr, hh]
  norm_num

/-- C4 counterexample: metadata is whitelisted, cleanly reachable with a
2xx status and no redirect chain, and the content carries no
sensitive-action keyword, yet the full pipeline (real heuristic, the
dampened external verdict) returns label `fraude`. -/
theorem whitelist_clean_fraude_reachable :
    domain_whitelist_hit exSafe4 exMeta4 = true
    ∧ exMeta4.url_accessible = some true
    ∧ pyStartsWith exMeta4.status_code "2" = true
    ∧ exMeta4.was_redirect_chain = false
    ∧ sensitive_hit (lowerStr exContent4) = false
    ∧ has_any (pyTake 1200 exContent4) DAMPEN_TOKENS = false
    ∧ outcomeLabel (analyze_decide exContent4 exMeta4 "url" exSafe4 [] true (.ok exRaw4))
        = some "fraude" := by
  refine ⟨by decide, rfl, by decide, rfl, by decide, by decide, ?_⟩
  have hMeta : analyzeMeta exSafe4 [] exContent4 exMeta4 = exMeta4F := by decide
  have hImpc : (analyzeImp exSafe4 [] exContent4 exMeta4).critical_impersonation = false := by
    decide
  have hheur : (heuristic_score exContent4 exMeta4F).score = 0.52 := by
    unfold heuristic_score heurRaw benignAmount
    simp +decide only []
    norm_num [max_def, min_def]
  have hllmr : (llm_postprocess (build_signal_summary exContent4 exMeta4F) exRaw4).risk_score_llm
      = 0.7 := by
    unfold llm_postprocess build_signal_summary exRaw4
    simp +decide only []
    norm_num [max_def, min_def]
  have hlabel : (combine_scores (heuristic_score exContent4 exMeta4F)
      (llm_postprocess (build_signal_summary exContent4 exMeta4F) exRaw4)
      exMeta4F "url" exContent4).label = "fraude" := by
    unfold combine_scores
    dsimp only
    rw [hheur, hllmr]
    rw [show has_any exContent4 HIGH_SEVERITY_TOKENS = true from by decide]
    rw [show exMeta4F.brand_impersonation_detected = true from rfl]
    simp only [if_true]
    rw [if_pos]
    norm_num [max_def, min_def]
  unfold analyze_decide
  dsimp only
  rw [hImpc, hMeta]
  simp only [Bool.false_eq_true, if_false]
  rw [show (("url" == "image") && _has_prize_cta exContent4
        && (_has_brand_words exContent4 || exMeta4F.brand_impersonation_detected)) = false
      from by decide]
  simp only [Bool.false_eq_true, if_false]
  have hla : llm_analyze true (.ok exRaw4) exContent4 exMeta4F
      = .ok (llm_postprocess (build_signal_summary exContent4 exMeta4F) exRaw4) := rfl
  rw [hla]
  dsimp only
  unfold outcomeLabel
  rw [hlabel]

/-- C4 amended: with a whitelisted domain, a clean 2xx connection without a
redirect chain and no sensitive-action keyword in the excerpt, the
dampened classifier risk is at most 0.7, and the fused label is not
`fraude` provided the heuristic score stays below 29/110. -/
theorem whitelist_clean_dampening (h : HeurResult) (raw : LlmRaw) (meta : Meta)
    (st content : String)
    (h1 : meta.domain_whitelisted = true)
    (h2 : meta.url_accessible = some true)
    (h3 : pyStartsWith meta.status_code "2" = true)
    (h4 : meta.was_redirect_chain = false)
    (h5 : has_any (pyTake 1200 content) DAMPEN_TOKENS = false)
    (h6 : h.score < 29/110) :
    (llm_postprocess (build_signal_summary content meta) raw).risk_score_llm ≤ 0.7
    ∧ (combine_scores h (llm_postprocess (build_signal_summary content meta) raw)
         meta st content).label ≠ "fraude" := by
  have hd : ((build_signal_summary content meta).domain_whitelisted
      && (build_signal_summary content meta).https_2xx_no_chain
      && !has_any (build_signal_summary content meta).content_excerpt DAMPEN_TOKENS) = true := by
    simp [build_signal_summary, h1, h2, h3, h4, h5]
  have hr := llm_dampened_risk_le _ raw hd
  exact ⟨hr, combine_label_ne_fraude h _ meta st content h6 hr⟩

/-- Witness for the amended C4 at a concrete whitelisted clean input. -/
theorem whitelist_clean_dampening_witness :
    (llm_postprocess (build_signal_summary "ola" exMeta4F) exRaw4).risk_score_llm ≤ 0.7
    ∧ (combine_scores ⟨0, [], []⟩ (llm_postprocess (build_signal_summary "ola" exMeta4F) exRaw4)
         exMeta4F "url" "ola").label ≠ "fraude" :=
  whitelist_clean_dampening ⟨0, [], []⟩ exRaw4 exMeta4F "url" "ola"
    rfl rfl (by decide) rfl (by decide) (by norm_num)

/-- C5 counterexample: with a configured key, a transport exception of the
external call propagates out of `llm_analyze` instead of being converted
to the default degraded verdict. -/
theorem llm_transport_error_propagates :
    llm_analyze true (.error ()) "" {} = .error () := rfl

/-- C5 amended: without an API key the adapter deterministically returns
the default verdict (label ok, risk 0.2, confidence 0.4) for any external
state, but with a key a transport error or timeout propagates as an
exception to the caller (handled by the generic failure path of the
route), not as the default verdict. -/
theorem llm_degradation_paths (ext : Except Unit LlmRaw) (content : String)
    (meta : Meta) (e : Unit) :
    llm_analyze false ext content meta = .ok LLM_DEFAULT
    ∧ LLM_DEFAULT.label = "ok" ∧ LLM_DEFAULT.risk_score_llm = 0.2
    ∧ LLM_DEFAULT.confidence_llm = 0.4
    ∧ llm_analyze true (.error e) content meta = .error e :=
  ⟨rfl, rfl, rfl, rfl, rfl⟩

/-- C6 counterexample: an OCR backend exception during the first variant
pass aborts extraction (the error propagates) instead of skipping only
that pass. -/
theorem ocr_variant_exception_propagates :
    ocr_from_image_file {} [.error ()] (.ok ("", 0)) = .error () := rfl

/-- C6 amended: when every variant pass runs without exception but yields
no text and the final fallback pass throws or yields no text, extraction
returns empty text rather than an error (the fallback exception is the
one that is swallowed); and the heuristic scores an image with fewer than
20 OCR characters with the low-OCR-text red flag. -/
theorem ocr_failure_semantics (cfg : OcrCfg) (passes : List (Except Unit OcrPass))
    (fb : Except Unit (String × ℚ)) (meta : Meta) (text : String)
    (h1 : passes.all emptyOkB = true) (h2 : fbNoTextB fb = true)
    (h3 : meta.source_type = "image") (h4 : meta.ocr_text_len < 20) :
    ocr_from_image_file cfg passes fb = .ok ""
    ∧ "pouco texto reconhecido (OCR)." ∈ (heuristic_score text meta).red_flags := by
  constructor
  · unfold ocr_from_image_file
    rcases ocrLoop_all_empty cfg passes h1 with hl | hl <;> rw [hl]
    cases fb with
    | error e => rfl
    | ok tp =>
      obtain ⟨t, c⟩ := tp
      have ht : t = "" := by simpa [fbNoTextB] using h2
      rw [ht]
  · have hcond : (meta.source_type == "image" && decide (meta.ocr_text_len < 20)) = true := by
      simp [h3, h4]
    simp [heuristic_score, heurRed, hcond, List.mem_append]

/-- Witness for the amended C6 at a concrete empty pass sequence. -/
theorem ocr_failure_semantics_witness :
    ocr_from_image_file {} [.ok ⟨"", 0, false, 0⟩] (.error ()) = .ok ""
    ∧ "pouco texto reconhecido (OCR)."
        ∈ (heuristic_score "ab" { source_type := "image" }).red_flags :=
  ocr_failure_semantics {} [.ok ⟨"", 0, false, 0⟩] (.error ()) { source_type := "image" } "ab"
    (by decide) (by decide) rfl (by decide)

/-- C7 counterexample: appending the matched high-severity token
`promocao` to a 77-character prize-bait text strictly decreases the
heuristic score (the longer text earns the extra no-link benign bonus). -/
theorem heuristic_not_monotone :
    has_any (exText7 ++ " promocao") HIGH_SEVERITY_TOKENS = true
    ∧ pyIn "promocao" (lowerStr (exText7 ++ " promocao")) = true
    ∧ (heuristic_score (exText7 ++ " promocao") {}).score
        < (heuristic_score exText7 {}).score := by
  refine ⟨by decide, by decide, ?_⟩
  have hA : (heuristic_score exText7 ({} : Meta)).score = 0.12 := by
    unfold heuristic_score heurRaw benignAmount
    simp +decide only []
    norm_num [max_def, min_def]
  have hB : (heuristic_score (exText7 ++ " promocao") ({} : Meta)).score = 0.02 := by
    unfold heuristic_score heurRaw benignAmount
    simp +decide only []
    norm_num [max_def, min_def]
  rw [hA, hB]
  norm_num

/-- C7 amended: the raw red-flag weight sum of the heuristic (its score
before the benign offset is subtracted) is monotone non-decreasing under
appending any text, in particular a matched high-severity token; only the
benign offset can make the final clamped score drop. -/
theorem heurRaw_monotone_append (t s : String) (meta : Meta) :
    heurRaw t meta ≤ heurRaw (t ++ s) meta := by
  unfold heurRaw
  dsimp only
  rw [lowerStr_append]
  refine add_le_add (add_le_add (add_le_add (add_le_add (add_le_add (add_le_add
    (add_le_add (add_le_add (add_le_add ?_ ?_) ?_) ?_) ?_) ?_) ?_) ?_) ?_) ?_
  · exact ite_weight_mono _ _ _ (by norm_num)
      (fun h => regexAnyLit_mono _ _ _ h)
  · exact ite_weight_mono _ _ _ (by norm_num)
      (fun h => regexAnyLit_mono _ _ _ h)
  · exact le_refl _
  · exact le_refl _
  · exact le_refl _
  · exact le_refl _
  · exact le_refl _
  · exact ite_weight_mono _ _ _ (by norm_num)
      (fun h => prize_cta_hit_mono _ _ h)
  · exact le_refl _
  · refine ite_weight_mono _ _ _ (by norm_num) (fun h => ?_)
    rw [Bool.and_eq_true] at h ⊢
    exact ⟨h.1, prize_cta_hit_mono _ _ h.2⟩

/-- C8: once the loop reaches a pass with non-empty text, confidence at or
above the early-exit threshold and enough characters, extraction returns
that text immediately and the result does not depend on any later pass or
on the fallback; and once a pass ends beyond the time budget (without
early exit), extraction returns the best-confidence text collected so
far, likewise independent of every later pass. -/
theorem ocr_early_exit_and_budget (cfg : OcrCfg) (pre rest rest2 : List (Except Unit OcrPass))
    (fb fb2 : Except Unit (String × ℚ)) (p : OcrPass)
    (hpre : pre.all (continuesB cfg) = true) :
    (earlyB cfg p = true →
        ocr_from_image_file cfg (pre ++ .ok p :: rest) fb = .ok p.txt
        ∧ ocr_from_image_file cfg (pre ++ .ok p :: rest2) fb2 = .ok p.txt)
    ∧ (earlyB cfg p = false → budgetB cfg p = true →
        ocr_from_image_file cfg (pre ++ .ok p :: rest) fb
            = .ok (bestText (updBest (foldBest none pre) p))
        ∧ ocr_from_image_file cfg (pre ++ .ok p :: rest2) fb2
            = .ok (bestText (updBest (foldBest none pre) p))) := by
  constructor
  · intro he
    constructor <;>
    · unfold ocr_from_image_file
      rw [ocrLoop_append cfg pre _ none hpre]
      unfold ocrLoop
      rw [he]
      rfl
  · intro he hb
    constructor <;>
    · unfold ocr_from_image_file
      rw [ocrLoop_append cfg pre _ none hpre]
      unfold ocrLoop
      rw [he, hb]
      rfl

/-- Witness for C8: after one low-confidence pass, a pass meeting the
early-exit conditions returns its text, whatever the later passes and the
fallback are. -/
theorem ocr_early_exit_and_budget_witness :
    ocr_from_image_file {}
        ([.ok ⟨"ab", 50, false, 100⟩] ++ .ok ⟨"0123456789", 80, false, 200⟩ :: [.error ()])
        (.error ()) = .ok "0123456789"
    ∧ ocr_from_image_file {}
        ([.ok ⟨"ab", 50, false, 100⟩] ++ .ok ⟨"0123456789", 80, false, 200⟩ :: [])
        (.ok ("x", 0)) = .ok "0123456789" :=
  (ocr_early_exit_and_budget {} [.ok ⟨"ab", 50, false, 100⟩] [.error ()] []
    (.error ()) (.ok ("x", 0)) ⟨"0123456789", 80, false, 200⟩
    (by simp [continuesB, earlyB, budgetB, effConf, pyLen]; norm_num)).1
    (by simp [earlyB, effConf, pyLen]; norm_num)

/-- C9: Brand Guard compares domains with a plain string suffix test: when
the sender registered domain textually ends with an official domain of
every mentioned brand (and the reply-to domain, when non-empty, does
likewise), the verdict has `critical_impersonation = false` — including
sender domains like `fakeitau.com.br` against `itau.com.br`, which are
neither equal to it nor a dot-separated subdomain of it. -/
theorem brand_guard_suffix_no_boundary (meta : Meta) (content : String)
    (h : (_candidate_brands (meta.from_ ++ " " ++ meta.subject ++ " " ++ content)).all
          (coveredB (lowerStr meta.from_registered_domain)
                    (lowerStr meta.reply_to_registered_domain)) = true) :
    (detect_brand_impersonation meta content).critical_impersonation = false := by
  unfold detect_brand_impersonation
  dsimp only
  cases hc : _candidate_brands (meta.from_ ++ " " ++ meta.subject ++ " " ++ content) with
  | nil => rfl
  | cons first rest =>
    rw [hc] at h
    dsimp only
    rw [findCrit_none _ _ _ h]

/-- Witness for C9 at the sender domain `fakeitau.com.br` with an `itau`
mention: the plain suffix test accepts it, so no critical impersonation. -/
theorem brand_guard_suffix_no_boundary_witness :
    (detect_brand_impersonation { from_registered_domain := "fakeitau.com.br" }
        "itau").critical_impersonation = false :=
  brand_guard_suffix_no_boundary { from_registered_domain := "fakeitau.com.br" } "itau"
    (by decide)

/-- C10: the domain-whitelist test suffix-matches the full final URL
string, so inputs whose metadata carries no URL (text, image, email) are
never domain-whitelisted, while a URL whose trailing characters merely
coincide with a whitelisted entry (here a path ending in the entry) is
treated as whitelisted. -/
theorem whitelist_full_url_suffix :
    (∀ (ds : List String) (meta : Meta), meta.final_url = "" → meta.url = "" →
        domain_whitelist_hit ds meta = false)
    ∧ domain_whitelist_hit ["itau.com.br"]
        { source_type := "url", url := "https://evil.example/files/itau.com.br" } = true := by
  constructor
  · intro ds meta h1 h2
    unfold domain_whitelist_hit
    dsimp only
    rw [h1, h2]
    simp only [ite_self]
    rw [List.any_eq_false]
    intro d _
    by_cases hd : d = ""
    · simp [hd]
    · rw [pyEndsWith_empty_left d hd]
      simp
  · decide

/-- Witness for C10 at a concrete no-URL metadata. -/
theorem whitelist_full_url_suffix_witness :
    domain_whitelist_hit ["itau.com.br"] { source_type := "text" } = false :=
  whitelist_full_url_suffix.1 ["itau.com.br"] { source_type := "text" } rfl rfl

end Fraudes
